import Mathlib

/-
Verification of the AST printer (src/src/language/printer.js) of this
repository. The string-assembly helpers, the block-string renderer and every
entry of the per-kind rendering table printDocASTReducer are embedded as
executable Lean functions over the already-rendered children, exactly as the
table entries receive them from the tree walker. Optional node fields are
Option values; table entries return Except String String, where the error case
models the one JavaScript operation in the table that can throw, namely the
property access args.every on an absent argument list. Character-level
operations embed the regular-expression replacements of the source.
-/

/-- Separator join of a list of strings, mirroring JavaScript
Array.prototype.join: items are interleaved with the separator. -/
def joinSep (sep : String) : List String → String
  | [] => ""
  | [x] => x
  | x :: y :: rest => x ++ sep ++ joinSep sep (y :: rest)

/-- Embeds the helper join from printer.js: an absent array prints as the
empty string, otherwise falsy (empty) items are filtered out and the rest
joined with the separator. -/
def join (maybeArray : Option (List String)) (sep : String) : String :=
  match maybeArray with
  | none => ""
  | some a => joinSep sep (a.filter (fun x => x != ""))

/-- Embeds the helper wrap from printer.js: a falsy (empty or absent,
collapsed to empty by the callers) body prints as the empty string, otherwise
it is surrounded by the prefix and the suffix. -/
def wrap (start : String) (maybeString : String) (endS : String) : String :=
  if maybeString = "" then "" else start ++ maybeString ++ endS

/-- Character-level global replacement of a newline by a newline followed by
two spaces, embedding .replace of the newline pattern in the helper indent
of printer.js. -/
def replNL : List Char → String
  | [] => ""
  | c :: cs => (if c = '\n' then "\n  " else String.singleton c) ++ replNL cs

/-- Embeds the helper indent from printer.js: the empty string stays empty
(the JavaScript falsy guard), otherwise two spaces are prepended and every
newline is replaced by a newline followed by two spaces. -/
def indent (maybeString : String) : String :=
  if maybeString = "" then "" else "  " ++ replNL maybeString.data

/-- Embeds the helper block from printer.js: a present, non-empty array
prints as a brace-delimited block of its newline-joined, indented items,
anything else prints as the empty string. -/
def block (array : Option (List String)) : String :=
  match array with
  | none => ""
  | some a =>
    if a.length ≠ 0 then "\x7b\n" ++ indent (join (some a) "\n") ++ "\n\x7d" else ""

/-- Embeds addDescription from printer.js: the rendered description (empty
when absent) is joined to the body with a newline, the join helper dropping
the empty contribution. -/
def addDescription (description : Option String) (body : String) : String :=
  join (some [description.getD "", body]) "\n"

/-- Character-level global replacement of a triple quote by a backslash
followed by the triple quote, embedding .replace of the triple-quote pattern
in printBlockString of printer.js. Scanning is leftmost, non-overlapping,
exactly as the global regular expression. -/
def escapeTQL : List Char → List Char
  | '"' :: '"' :: '"' :: rest => '\\' :: '"' :: '"' :: '"' :: escapeTQL rest
  | c :: rest => c :: escapeTQL rest
  | [] => []

/-- Triple-quote escaping lifted to strings. -/
def escapeTripleQuotes (v : String) : String := String.mk (escapeTQL v.data)

/-- First character is a space or a tab, embedding the index-zero comparison
of printBlockString in printer.js. -/
def headSpaceOrTab : List Char → Bool
  | ' ' :: _ => true
  | '\t' :: _ => true
  | _ => false

/-- Last character is a double quote, embedding the trailing-quote regular
expression of printBlockString in printer.js. -/
def lastIsQuote (l : List Char) : Bool :=
  match l.getLast? with
  | some c => c = '"'
  | none => false

/-- Embeds printBlockString from printer.js: a value that starts with a space
or tab and has no newline keeps its single line between the triple quotes,
with a newline appended when the escaped value ends in a quote; every other
value is put between a leading and a trailing blank line, indented unless it
is a description. -/
def printBlockString (value : String) (isDescription : Bool) : String :=
  let escaped := escapeTripleQuotes value
  if headSpaceOrTab value.data && !(value.data.contains '\n') then
    "\"\"\"" ++ (if lastIsQuote escaped.data then escaped ++ "\n" else escaped) ++ "\"\"\""
  else
    "\"\"\"\n" ++ (if isDescription then escaped else indent escaped) ++ "\n\"\"\""

/-- Hexadecimal digit character for a value below sixteen. -/
def hexDigit (n : Nat) : Char :=
  if n < 10 then Char.ofNat (48 + n) else Char.ofNat (97 + n - 10)

/-- Four-digit lowercase hexadecimal rendering of a code point. -/
def hex4 (n : Nat) : String :=
  String.mk [hexDigit (n / 4096 % 16), hexDigit (n / 256 % 16),
    hexDigit (n / 16 % 16), hexDigit (n % 16)]

/-- Concatenation of a list of strings. -/
def concatStrings : List String → String
  | [] => ""
  | s :: rest => s ++ concatStrings rest

/-- JSON escape of one character, as JSON.stringify applies to string
values. -/
def jsonEscapeChar (c : Char) : String :=
  if c = '"' then "\\\""
  else if c = '\\' then "\\\\"
  else if c = '\n' then "\\n"
  else if c = '\r' then "\\r"
  else if c = '\t' then "\\t"
  else if c = Char.ofNat 8 then "\\b"
  else if c = Char.ofNat 12 then "\\f"
  else if c.toNat < 32 then "\\u" ++ hex4 c.toNat
  else String.singleton c

/-- Embeds JSON.stringify applied to a string, as the non-block branch of the
StringValue entry uses it. -/
def jsonStringify (s : String) : String :=
  "\"" ++ concatStrings (s.data.map jsonEscapeChar) ++ "\""

/-
The rendering table. Each definition below embeds one entry of
printDocASTReducer from printer.js, as a function of the already-rendered
children (strings; Option for fields the syntax tree marks optional). All
operations the entries perform on defined strings are total; the only
possibly-throwing operation, args.every on a possibly-absent argument list in
FieldDefinition and DirectiveDefinition, is modelled by the error case.
-/

/-- Name entry: the identifier text verbatim. -/
def printDocASTReducer.Name (value : String) : Except String String :=
  Except.ok value

/-- Variable entry: dollar sign before the rendered name. -/
def printDocASTReducer.Variable (name : String) : Except String String :=
  Except.ok ("$" ++ name)

/-- Document entry: definitions joined by a blank line, then a trailing
newline. -/
def printDocASTReducer.Document (definitions : List String) : Except String String :=
  Except.ok (join (some definitions) "\n\n" ++ "\n")

/-- OperationDefinition entry: the shorthand form (just the selection set)
for a nameless query without directives and variable definitions, the full
space-joined form otherwise. -/
def printDocASTReducer.OperationDefinition (operation : String) (name : Option String)
    (variableDefinitions : Option (List String)) (directives : Option (List String))
    (selectionSet : String) : Except String String :=
  let varDefs := wrap "(" (join variableDefinitions ", ") ")"
  let dirs := join directives " "
  Except.ok
    (if name.getD "" = "" ∧ dirs = "" ∧ varDefs = "" ∧ operation = "query"
      then selectionSet
      else join (some [operation, join (some [name.getD "", varDefs]) "", dirs,
        selectionSet]) " ")

/-- VariableDefinition entry. -/
def printDocASTReducer.VariableDefinition (varStr : String) (type : String)
    (defaultValue : Option String) : Except String String :=
  Except.ok (varStr ++ ": " ++ type ++ wrap " = " (defaultValue.getD "") "")

/-- SelectionSet entry: a block of the rendered selections. -/
def printDocASTReducer.SelectionSet (selections : List String) : Except String String :=
  Except.ok (block (some selections))

/-- Field entry. -/
def printDocASTReducer.Field (aliasN : Option String) (name : String)
    (arguments : Option (List String)) (directives : Option (List String))
    (selectionSet : Option String) : Except String String :=
  Except.ok (join (some [wrap "" (aliasN.getD "") ": " ++ name ++
    wrap "(" (join arguments ", ") ")", join directives " ",
    selectionSet.getD ""]) " ")

/-- Argument entry. -/
def printDocASTReducer.Argument (name : String) (value : String) : Except String String :=
  Except.ok (name ++ ": " ++ value)

/-- FragmentSpread entry. -/
def printDocASTReducer.FragmentSpread (name : String)
    (directives : Option (List String)) : Except String String :=
  Except.ok ("..." ++ name ++ wrap " " (join directives " ") "")

/-- InlineFragment entry. -/
def printDocASTReducer.InlineFragment (typeCondition : Option String)
    (directives : Option (List String)) (selectionSet : String) : Except String String :=
  Except.ok (join (some ["...", wrap "on " (typeCondition.getD "") "",
    join directives " ", selectionSet]) " ")

/-- FragmentDefinition entry. -/
def printDocASTReducer.FragmentDefinition (name : String) (typeCondition : String)
    (variableDefinitions : Option (List String)) (directives : Option (List String))
    (selectionSet : String) : Except String String :=
  Except.ok ("fragment " ++ name ++ wrap "(" (join variableDefinitions ", ") ")" ++
    " " ++ "on " ++ typeCondition ++ " " ++ wrap "" (join directives " ") " " ++
    selectionSet)

/-- IntValue entry. -/
def printDocASTReducer.IntValue (value : String) : Except String String :=
  Except.ok value

/-- FloatValue entry. -/
def printDocASTReducer.FloatValue (value : String) : Except String String :=
  Except.ok value

/-- StringValue entry: block strings go through printBlockString, where the
description flag records whether the walker reached the node under a
description key; other strings are JSON quoted. -/
def printDocASTReducer.StringValue (value : String) (blockFlag : Bool)
    (isDescriptionKey : Bool) : Except String String :=
  Except.ok (if blockFlag then printBlockString value isDescriptionKey
    else jsonStringify value)

/-- BooleanValue entry. -/
def printDocASTReducer.BooleanValue (value : Bool) : Except String String :=
  Except.ok (if value then "true" else "false")

/-- NullValue entry. -/
def printDocASTReducer.NullValue : Except String String :=
  Except.ok "null"

/-- EnumValue entry. -/
def printDocASTReducer.EnumValue (value : String) : Except String String :=
  Except.ok value

/-- ListValue entry. -/
def printDocASTReducer.ListValue (values : List String) : Except String String :=
  Except.ok ("[" ++ join (some values) ", " ++ "]")

/-- ObjectValue entry. -/
def printDocASTReducer.ObjectValue (fields : List String) : Except String String :=
  Except.ok ("\x7b" ++ join (some fields) ", " ++ "\x7d")

/-- ObjectField entry. -/
def printDocASTReducer.ObjectField (name : String) (value : String) : Except String String :=
  Except.ok (name ++ ": " ++ value)

/-- Directive entry. -/
def printDocASTReducer.Directive (name : String)
    (arguments : Option (List String)) : Except String String :=
  Except.ok ("@" ++ name ++ wrap "(" (join arguments ", ") ")")

/-- NamedType entry. -/
def printDocASTReducer.NamedType (name : String) : Except String String :=
  Except.ok name

/-- ListType entry. -/
def printDocASTReducer.ListType (type : String) : Except String String :=
  Except.ok ("[" ++ type ++ "]")

/-- NonNullType entry. -/
def printDocASTReducer.NonNullType (type : String) : Except String String :=
  Except.ok (type ++ "!")

/-- SchemaDefinition entry. -/
def printDocASTReducer.SchemaDefinition (directives : Option (List String))
    (operationTypes : List String) : Except String String :=
  Except.ok (join (some ["schema", join directives " ", block (some operationTypes)]) " ")

/-- OperationTypeDefinition entry. -/
def printDocASTReducer.OperationTypeDefinition (operation : String)
    (type : String) : Except String String :=
  Except.ok (operation ++ ": " ++ type)

/-- ScalarTypeDefinition entry. -/
def printDocASTReducer.ScalarTypeDefinition (description : Option String) (name : String)
    (directives : Option (List String)) : Except String String :=
  Except.ok (addDescription description
    (join (some ["scalar", name, join directives " "]) " "))

/-- ObjectTypeDefinition entry. -/
def printDocASTReducer.ObjectTypeDefinition (description : Option String) (name : String)
    (interfaces : Option (List String)) (directives : Option (List String))
    (fields : Option (List String)) : Except String String :=
  Except.ok (addDescription description
    (join (some ["type", name, wrap "implements " (join interfaces " & ") "",
      join directives " ", block fields]) " "))

/-- FieldDefinition entry: the argument-list layout is single-line when every
rendered argument is newline-free, multi-line otherwise. An absent argument
list makes args.every throw in the source, modelled by the error case. -/
def printDocASTReducer.FieldDefinition (description : Option String) (name : String)
    (arguments : Option (List String)) (type : String)
    (directives : Option (List String)) : Except String String :=
  match arguments with
  | none => Except.error "TypeError: cannot read property every of undefined"
  | some args =>
    Except.ok (addDescription description
      (name ++
        (if args.all (fun arg => !(arg.data.contains '\n'))
          then wrap "(" (join (some args) ", ") ")"
          else wrap "(\n" (indent (join (some args) "\n")) "\n)") ++
        ": " ++ type ++ wrap " " (join directives " ") ""))

/-- InputValueDefinition entry. -/
def printDocASTReducer.InputValueDefinition (description : Option String) (name : String)
    (type : String) (defaultValue : Option String)
    (directives : Option (List String)) : Except String String :=
  Except.ok (addDescription description
    (join (some [name ++ ": " ++ type, wrap "= " (defaultValue.getD "") "",
      join directives " "]) " "))

/-- InterfaceTypeDefinition entry. -/
def printDocASTReducer.InterfaceTypeDefinition (description : Option String) (name : String)
    (directives : Option (List String)) (fields : Option (List String)) :
    Except String String :=
  Except.ok (addDescription description
    (join (some ["interface", name, join directives " ", block fields]) " "))

/-- UnionTypeDefinition entry: the member segment appears only for a present,
non-empty type list. -/
def printDocASTReducer.UnionTypeDefinition (description : Option String) (name : String)
    (directives : Option (List String)) (types : Option (List String)) :
    Except String String :=
  Except.ok (addDescription description
    (join (some ["union", name, join directives " ",
      match types with
      | some ts => if ts.length ≠ 0 then "= " ++ join (some ts) " | " else ""
      | none => ""]) " "))

/-- EnumTypeDefinition entry. -/
def printDocASTReducer.EnumTypeDefinition (description : Option String) (name : String)
    (directives : Option (List String)) (values : Option (List String)) :
    Except String String :=
  Except.ok (addDescription description
    (join (some ["enum", name, join directives " ", block values]) " "))

/-- EnumValueDefinition entry. -/
def printDocASTReducer.EnumValueDefinition (description : Option String) (name : String)
    (directives : Option (List String)) : Except String String :=
  Except.ok (addDescription description (join (some [name, join directives " "]) " "))

/-- InputObjectTypeDefinition entry. -/
def printDocASTReducer.InputObjectTypeDefinition (description : Option String)
    (name : String) (directives : Option (List String))
    (fields : Option (List String)) : Except String String :=
  Except.ok (addDescription description
    (join (some ["input", name, join directives " ", block fields]) " "))

/-- DirectiveDefinition entry: same dual-mode argument layout as
FieldDefinition, same error on an absent argument list. -/
def printDocASTReducer.DirectiveDefinition (description : Option String) (name : String)
    (arguments : Option (List String)) (locations : List String) : Except String String :=
  match arguments with
  | none => Except.error "TypeError: cannot read property every of undefined"
  | some args =>
    Except.ok (addDescription description
      ("directive @" ++ name ++
        (if args.all (fun arg => !(arg.data.contains '\n'))
          then wrap "(" (join (some args) ", ") ")"
          else wrap "(\n" (indent (join (some args) "\n")) "\n)") ++
        " on " ++ join (some locations) " | "))

/-- SchemaExtension entry. -/
def printDocASTReducer.SchemaExtension (directives : Option (List String))
    (operationTypes : Option (List String)) : Except String String :=
  Except.ok (join (some ["extend schema", join directives " ", block operationTypes]) " ")

/-- ScalarTypeExtension entry. -/
def printDocASTReducer.ScalarTypeExtension (name : String)
    (directives : Option (List String)) : Except String String :=
  Except.ok (join (some ["extend scalar", name, join directives " "]) " ")

/-- ObjectTypeExtension entry. -/
def printDocASTReducer.ObjectTypeExtension (name : String)
    (interfaces : Option (List String)) (directives : Option (List String))
    (fields : Option (List String)) : Except String String :=
  Except.ok (join (some ["extend type", name,
    wrap "implements " (join interfaces " & ") "", join directives " ",
    block fields]) " ")

/-- InterfaceTypeExtension entry. -/
def printDocASTReducer.InterfaceTypeExtension (name : String)
    (directives : Option (List String)) (fields : Option (List String)) :
    Except String String :=
  Except.ok (join (some ["extend interface", name, join directives " ", block fields]) " ")

/-- UnionTypeExtension entry: the member segment appears only for a present,
non-empty type list. -/
def printDocASTReducer.UnionTypeExtension (name : String)
    (directives : Option (List String)) (types : Option (List String)) :
    Except String String :=
  Except.ok (join (some ["extend union", name, join directives " ",
    match types with
    | some ts => if ts.length ≠ 0 then "= " ++ join (some ts) " | " else ""
    | none => ""]) " ")

/-- EnumTypeExtension entry. -/
def printDocASTReducer.EnumTypeExtension (name : String)
    (directives : Option (List String)) (values : Option (List String)) :
    Except String String :=
  Except.ok (join (some ["extend enum", name, join directives " ", block values]) " ")

/-- InputObjectTypeExtension entry. -/
def printDocASTReducer.InputObjectTypeExtension (name : String)
    (directives : Option (List String)) (fields : Option (List String)) :
    Except String String :=
  Except.ok (join (some ["extend input", name, join directives " ", block fields]) " ")

/-- Discriminates the ok case of a rendering result. -/
def exceptOk : Except String String → Bool
  | Except.ok _ => true
  | Except.error _ => false

/-- Syntax-tree node, one constructor per kind of the rendering table.
Fields follow the shape the table entries destructure: child nodes, optional
child nodes, node sequences (Option for the sequences the syntax tree marks
optional) and terminal scalars. -/
inductive Node : Type where
  | Name (value : String)
  | Variable (name : Node)
  | Document (definitions : List Node)
  | OperationDefinition (operation : String) (name : Option Node)
      (variableDefinitions : Option (List Node)) (directives : Option (List Node))
      (selectionSet : Node)
  | VariableDefinition (varNode : Node) (type : Node) (defaultValue : Option Node)
  | SelectionSet (selections : List Node)
  | Field (aliasN : Option Node) (name : Node) (arguments : Option (List Node))
      (directives : Option (List Node)) (selectionSet : Option Node)
  | Argument (name : Node) (value : Node)
  | FragmentSpread (name : Node) (directives : Option (List Node))
  | InlineFragment (typeCondition : Option Node) (directives : Option (List Node))
      (selectionSet : Node)
  | FragmentDefinition (name : Node) (typeCondition : Node)
      (variableDefinitions : Option (List Node)) (directives : Option (List Node))
      (selectionSet : Node)
  | IntValue (value : String)
  | FloatValue (value : String)
  | StringValue (value : String) (blockFlag : Bool)
  | BooleanValue (value : Bool)
  | NullValue
  | EnumValue (value : String)
  | ListValue (values : List Node)
  | ObjectValue (fields : List Node)
  | ObjectField (name : Node) (value : Node)
  | Directive (name : Node) (arguments : Option (List Node))
  | NamedType (name : Node)
  | ListType (type : Node)
  | NonNullType (type : Node)
  | SchemaDefinition (directives : Option (List Node)) (operationTypes : List Node)
  | OperationTypeDefinition (operation : String) (type : Node)
  | ScalarTypeDefinition (description : Option Node) (name : Node)
      (directives : Option (List Node))
  | ObjectTypeDefinition (description : Option Node) (name : Node)
      (interfaces : Option (List Node)) (directives : Option (List Node))
      (fields : Option (List Node))
  | FieldDefinition (description : Option Node) (name : Node)
      (arguments : Option (List Node)) (type : Node) (directives : Option (List Node))
  | InputValueDefinition (description : Option Node) (name : Node) (type : Node)
      (defaultValue : Option Node) (directives : Option (List Node))
  | InterfaceTypeDefinition (description : Option Node) (name : Node)
      (directives : Option (List Node)) (fields : Option (List Node))
  | UnionTypeDefinition (description : Option Node) (name : Node)
      (directives : Option (List Node)) (types : Option (List Node))
  | EnumTypeDefinition (description : Option Node) (name : Node)
      (directives : Option (List Node)) (values : Option (List Node))
  | EnumValueDefinition (description : Option Node) (name : Node)
      (directives : Option (List Node))
  | InputObjectTypeDefinition (description : Option Node) (name : Node)
      (directives : Option (List Node)) (fields : Option (List Node))
  | DirectiveDefinition (description : Option Node) (name : Node)
      (arguments : Option (List Node)) (locations : List Node)
  | SchemaExtension (directives : Option (List Node)) (operationTypes : Option (List Node))
  | ScalarTypeExtension (name : Node) (directives : Option (List Node))
  | ObjectTypeExtension (name : Node) (interfaces : Option (List Node))
      (directives : Option (List Node)) (fields : Option (List Node))
  | InterfaceTypeExtension (name : Node) (directives : Option (List Node))
      (fields : Option (List Node))
  | UnionTypeExtension (name : Node) (directives : Option (List Node))
      (types : Option (List Node))
  | EnumTypeExtension (name : Node) (directives : Option (List Node))
      (values : Option (List Node))
  | InputObjectTypeExtension (name : Node) (directives : Option (List Node))
      (fields : Option (List Node))

mutual

/-- Modelled from the spec: the generic tree walker (visitor.js) is not part
of src/; sections 2 and 6 of the spec describe it as a depth-first post-order
traversal that hands each table entry the record of its already-rendered
children. printN folds the tree bottom-up accordingly; the Boolean records
whether the walker reached the node under a description key, the one piece of
key context the StringValue entry consumes. -/
def printN (isDesc : Bool) : Node → Except String String
  | .Name v => printDocASTReducer.Name v
  | .Variable n => do
    let s ← printN false n
    printDocASTReducer.Variable s
  | .Document defs => do
    let ds ← printL defs
    printDocASTReducer.Document ds
  | .OperationDefinition op name vds dirs sel => do
    let nameS ← printO false name
    let vdsS ← printLO vds
    let dirsS ← printLO dirs
    let selS ← printN false sel
    printDocASTReducer.OperationDefinition op nameS vdsS dirsS selS
  | .VariableDefinition v t dv => do
    let vS ← printN false v
    let tS ← printN false t
    let dvS ← printO false dv
    printDocASTReducer.VariableDefinition vS tS dvS
  | .SelectionSet sels => do
    let selsS ← printL sels
    printDocASTReducer.SelectionSet selsS
  | .Field al name args dirs sel => do
    let alS ← printO false al
    let nameS ← printN false name
    let argsS ← printLO args
    let dirsS ← printLO dirs
    let selS ← printO false sel
    printDocASTReducer.Field alS nameS argsS dirsS selS
  | .Argument name v => do
    let nameS ← printN false name
    let vS ← printN false v
    printDocASTReducer.Argument nameS vS
  | .FragmentSpread name dirs => do
    let nameS ← printN false name
    let dirsS ← printLO dirs
    printDocASTReducer.FragmentSpread nameS dirsS
  | .InlineFragment tc dirs sel => do
    let tcS ← printO false tc
    let dirsS ← printLO dirs
    let selS ← printN false sel
    printDocASTReducer.InlineFragment tcS dirsS selS
  | .FragmentDefinition name tc vds dirs sel => do
    let nameS ← printN false name
    let tcS ← printN false tc
    let vdsS ← printLO vds
    let dirsS ← printLO dirs
    let selS ← printN false sel
    printDocASTReducer.FragmentDefinition nameS tcS vdsS dirsS selS
  | .IntValue v => printDocASTReducer.IntValue v
  | .FloatValue v => printDocASTReducer.FloatValue v
  | .StringValue v b => printDocASTReducer.StringValue v b isDesc
  | .BooleanValue v => printDocASTReducer.BooleanValue v
  | .NullValue => printDocASTReducer.NullValue
  | .EnumValue v => printDocASTReducer.EnumValue v
  | .ListValue vs => do
    let vsS ← printL vs
    printDocASTReducer.ListValue vsS
  | .ObjectValue fs => do
    let fsS ← printL fs
    printDocASTReducer.ObjectValue fsS
  | .ObjectField name v => do
    let nameS ← printN false name
    let vS ← printN false v
    printDocASTReducer.ObjectField nameS vS
  | .Directive name args => do
    let nameS ← printN false name
    let argsS ← printLO args
    printDocASTReducer.Directive nameS argsS
  | .NamedType name => do
    let nameS ← printN false name
    printDocASTReducer.NamedType nameS
  | .ListType t => do
    let tS ← printN false t
    printDocASTReducer.ListType tS
  | .NonNullType t => do
    let tS ← printN false t
    printDocASTReducer.NonNullType tS
  | .SchemaDefinition dirs ots => do
    let dirsS ← printLO dirs
    let otsS ← printL ots
    printDocASTReducer.SchemaDefinition dirsS otsS
  | .OperationTypeDefinition op t => do
    let tS ← printN false t
    printDocASTReducer.OperationTypeDefinition op tS
  | .ScalarTypeDefinition d name dirs => do
    let dS ← printO true d
    let nameS ← printN false name
    let dirsS ← printLO dirs
    printDocASTReducer.ScalarTypeDefinition dS nameS dirsS
  | .ObjectTypeDefinition d name ifs dirs fs => do
    let dS ← printO true d
    let nameS ← printN false name
    let ifsS ← printLO ifs
    let dirsS ← printLO dirs
    let fsS ← printLO fs
    printDocASTReducer.ObjectTypeDefinition dS nameS ifsS dirsS fsS
  | .FieldDefinition d name args t dirs => do
    let dS ← printO true d
    let nameS ← printN false name
    let argsS ← printLO args
    let tS ← printN false t
    let dirsS ← printLO dirs
    printDocASTReducer.FieldDefinition dS nameS argsS tS dirsS
  | .InputValueDefinition d name t dv dirs => do
    let dS ← printO true d
    let nameS ← printN false name
    let tS ← printN false t
    let dvS ← printO false dv
    let dirsS ← printLO dirs
    printDocASTReducer.InputValueDefinition dS nameS tS dvS dirsS
  | .InterfaceTypeDefinition d name dirs fs => do
    let dS ← printO true d
    let nameS ← printN false name
    let dirsS ← printLO dirs
    let fsS ← printLO fs
    printDocASTReducer.InterfaceTypeDefinition dS nameS dirsS fsS
  | .UnionTypeDefinition d name dirs ts => do
    let dS ← printO true d
    let nameS ← printN false name
    let dirsS ← printLO dirs
    let tsS ← printLO ts
    printDocASTReducer.UnionTypeDefinition dS nameS dirsS tsS
  | .EnumTypeDefinition d name dirs vs => do
    let dS ← printO true d
    let nameS ← printN false name
    let dirsS ← printLO dirs
    let vsS ← printLO vs
    printDocASTReducer.EnumTypeDefinition dS nameS dirsS vsS
  | .EnumValueDefinition d name dirs => do
    let dS ← printO true d
    let nameS ← printN false name
    let dirsS ← printLO dirs
    printDocASTReducer.EnumValueDefinition dS nameS dirsS
  | .InputObjectTypeDefinition d name dirs fs => do
    let dS ← printO true d
    let nameS ← printN false name
    let dirsS ← printLO dirs
    let fsS ← printLO fs
    printDocASTReducer.InputObjectTypeDefinition dS nameS dirsS fsS
  | .DirectiveDefinition d name args locs => do
    let dS ← printO true d
    let nameS ← printN false name
    let argsS ← printLO args
    let locsS ← printL locs
    printDocASTReducer.DirectiveDefinition dS nameS argsS locsS
  | .SchemaExtension dirs ots => do
    let dirsS ← printLO dirs
    let otsS ← printLO ots
    printDocASTReducer.SchemaExtension dirsS otsS
  | .ScalarTypeExtension name dirs => do
    let nameS ← printN false name
    let dirsS ← printLO dirs
    printDocASTReducer.ScalarTypeExtension nameS dirsS
  | .ObjectTypeExtension name ifs dirs fs => do
    let nameS ← printN false name
    let ifsS ← printLO ifs
    let dirsS ← printLO dirs
    let fsS ← printLO fs
    printDocASTReducer.ObjectTypeExtension nameS ifsS dirsS fsS
  | .InterfaceTypeExtension name dirs fs => do
    let nameS ← printN false name
    let dirsS ← printLO dirs
    let fsS ← printLO fs
    printDocASTReducer.InterfaceTypeExtension nameS dirsS fsS
  | .UnionTypeExtension name dirs ts => do
    let nameS ← printN false name
    let dirsS ← printLO dirs
    let tsS ← printLO ts
    printDocASTReducer.UnionTypeExtension nameS dirsS tsS
  | .EnumTypeExtension name dirs vs => do
    let nameS ← printN false name
    let dirsS ← printLO dirs
    let vsS ← printLO vs
    printDocASTReducer.EnumTypeExtension nameS dirsS vsS
  | .InputObjectTypeExtension name dirs fs => do
    let nameS ← printN false name
    let dirsS ← printLO dirs
    let fsS ← printLO fs
    printDocASTReducer.InputObjectTypeExtension nameS dirsS fsS

/-- Modelled from the spec: bottom-up rendering of a node sequence, each item
reached under a list index (never a description key). -/
def printL : List Node → Except String (List String)
  | [] => Except.ok []
  | n :: ns => do
    let s ← printN false n
    let ss ← printL ns
    Except.ok (s :: ss)

/-- Modelled from the spec: bottom-up rendering of an optional child, the
Boolean again recording a description key. -/
def printO (isDesc : Bool) : Option Node → Except String (Option String)
  | none => Except.ok none
  | some n => do
    let s ← printN isDesc n
    Except.ok (some s)

/-- Modelled from the spec: bottom-up rendering of an optional node
sequence. -/
def printLO : Option (List Node) → Except String (Option (List String))
  | none => Except.ok none
  | some l => do
    let s ← printL l
    Except.ok (some s)

end

/-- Modelled from the spec: print passes the root to the walker with the
rendering table as leave-only callbacks and returns the rendered root. -/
def print (ast : Node) : Except String String := printN false ast

/-
Claim-side definitions. Lines of a string are its newline-separated segments,
the empty string having none (the lines convention of the spec, under which
the indent helper indents every line by two spaces). These definitions are
written from the wording of the specification and compared with the embedded
source functions above.
-/

/-- Newline-separated segments of a character list (split at every
newline). -/
def splitLines : List Char → List (List Char)
  | [] => [[]]
  | c :: cs =>
    if c = '\n' then [] :: splitLines cs
    else
      match splitLines cs with
      | [] => [[c]]
      | r :: rs => (c :: r) :: rs

/-- Lines of a string: its newline-separated segments, none for the empty
string. -/
def linesOf (s : String) : List String :=
  if s = "" then [] else (splitLines s.data).map String.mk

/-- Every line of the string indented by two spaces, the wording of the spec
for the indent helper. -/
def indentTwoEachLine (s : String) : String :=
  joinSep "\n" ((linesOf s).map (fun l => "  " ++ l))

/-- The block-string renderer as the spec words it: same branch condition and
escaping as the source, but the non-description body described as the escaped
value with every line indented two spaces. -/
def printBlockStringClaim (value : String) (isDescription : Bool) : String :=
  let escaped := escapeTripleQuotes value
  if headSpaceOrTab value.data && !(value.data.contains '\n') then
    "\"\"\"" ++ (if lastIsQuote escaped.data then escaped ++ "\n" else escaped) ++ "\"\"\""
  else
    "\"\"\"\n" ++ (if isDescription then escaped else indentTwoEachLine escaped) ++ "\n\"\"\""

/-- The block helper as the spec words it: a non-empty member sequence gives
an open brace, the newline-joined members with every resulting line indented
two spaces, and a closing brace on its own line; an empty sequence gives the
empty string. -/
def blockClaim (array : List String) : String :=
  if array = [] then ""
  else "\x7b\n" ++ indentTwoEachLine (join (some array) "\n") ++ "\n\x7d"

/-
Structural lemmas connecting the character-level embeddings with the
line-based wording of the spec, and emptiness facts about the helpers.
-/

theorem splitLines_ne_nil (l : List Char) : splitLines l ≠ [] := by
  cases l with
  | nil => simp [splitLines]
  | cons c cs =>
    simp only [splitLines]
    split
    · simp
    · split <;> simp

theorem mk_nil_eq : String.mk [] = "" := rfl

theorem singleton_append_mk (c : Char) (r : List Char) :
    String.singleton c ++ String.mk r = String.mk (c :: r) := rfl

theorem replNL_eq (l : List Char) :
    replNL l = joinSep "\n  " ((splitLines l).map String.mk) := by
  induction l with
  | nil => rfl
  | cons c cs ih =>
    by_cases hc : c = '\n'
    · subst hc
      simp only [replNL, splitLines, if_pos rfl]
      obtain ⟨r, rs, hs⟩ : ∃ r rs, splitLines cs = r :: rs := by
        cases h : splitLines cs with
        | nil => exact absurd h (splitLines_ne_nil cs)
        | cons r rs => exact ⟨r, rs, rfl⟩
      rw [ih, hs]
      simp [List.map, joinSep, mk_nil_eq, String.empty_append]
    · simp only [replNL, splitLines, if_neg hc]
      obtain ⟨r, rs, hs⟩ : ∃ r rs, splitLines cs = r :: rs := by
        cases h : splitLines cs with
        | nil => exact absurd h (splitLines_ne_nil cs)
        | cons r rs => exact ⟨r, rs, rfl⟩
      rw [ih, hs]
      cases rs with
      | nil => simp only [List.map, joinSep, singleton_append_mk]
      | cons r2 rs2 =>
        simp only [List.map, joinSep, ← singleton_append_mk, String.append_assoc]

theorem two_sp_joinSep (L : List String) (h : L ≠ []) :
    "  " ++ joinSep "\n  " L = joinSep "\n" (L.map (fun x => "  " ++ x)) := by
  induction L with
  | nil => exact absurd rfl h
  | cons x t ih =>
    cases t with
    | nil => rfl
    | cons y t2 =>
      have hnl : ("\n  " : String) = "\n" ++ "  " := rfl
      simp only [List.map, joinSep] at *
      rw [← ih (by simp), hnl]
      simp only [String.append_assoc]

theorem indent_eq_indentTwoEachLine (s : String) : indent s = indentTwoEachLine s := by
  by_cases h : s = ""
  · subst h; rfl
  · simp only [indent, indentTwoEachLine, linesOf, if_neg h]
    rw [replNL_eq, two_sp_joinSep _ (by simp [splitLines_ne_nil])]

theorem str_len_pos (s : String) (h : s ≠ "") : 0 < s.length := by
  rcases s with ⟨l⟩
  cases l with
  | nil => exact absurd rfl h
  | cons c cs => simp [String.length_mk]

theorem joinSep_ne_empty (sep : String) (x : String) (xs : List String) (hx : x ≠ "") :
    joinSep sep (x :: xs) ≠ "" := by
  cases xs with
  | nil => exact hx
  | cons y t =>
    intro hcon
    have := congrArg String.length hcon
    simp only [joinSep, String.length_append, String.length_empty] at this
    have hp := str_len_pos x hx
    omega

theorem filter_ne_all (l : List String) (h : ∀ a ∈ l, a ≠ "") :
    l.filter (fun x => x != "") = l := by
  rw [List.filter_eq_self]
  intro a ha
  simp [h a ha]

theorem join_all_ne (sep : String) (l : List String) (h : ∀ a ∈ l, a ≠ "") :
    join (some l) sep = joinSep sep l := by
  rw [join, filter_ne_all l h]

theorem join_eq_empty_iff (sep : String) (l : List String) (h : ∀ a ∈ l, a ≠ "") :
    join (some l) sep = "" ↔ l = [] := by
  rw [join_all_ne sep l h]
  constructor
  · intro he
    cases l with
    | nil => rfl
    | cons x xs =>
      exact absurd he (joinSep_ne_empty sep x xs (h x (List.mem_cons_self x xs)))
  · intro he; subst he; rfl

theorem wrap_eq_empty_iff (s t e : String) : wrap s t e = "" ↔ t = "" := by
  constructor
  · intro h
    by_contra ht
    rw [wrap, if_neg ht] at h
    have hlen := congrArg String.length h
    simp only [String.length_append, String.length_empty] at hlen
    have := str_len_pos t ht
    omega
  · intro h; rw [wrap, if_pos h]

theorem wrap_of_ne (s t e : String) (h : t ≠ "") : wrap s t e = s ++ t ++ e := by
  rw [wrap, if_neg h]

theorem indent_ne_empty (s : String) (h : s ≠ "") : indent s ≠ "" := by
  rw [indent, if_neg h]
  intro hcon
  have hlen := congrArg String.length hcon
  simp only [String.length_append, String.length_empty] at hlen
  have : ("  " : String).length = 2 := rfl
  omega

theorem join_pair_nosep (a b : String) : join (some [a, b]) "" = a ++ b := by
  by_cases ha : a = "" <;> by_cases hb : b = "" <;>
    simp [join, List.filter_cons, ha, hb, joinSep]

theorem join_snoc_empty (sep : String) (l : List String) :
    join (some (l ++ [""])) sep = join (some l) sep := by
  simp [join, List.filter_append, List.filter_cons]

/-
Claim theorems.
-/

/-- Claim C1, counterexample: the claim states that the single-line value
consisting of a space and the word hello, rendered with the block flag set,
prints with a newline inserted before the closing triple quote. The source
appends that newline only when the escaped value ends in a double quote, so
the rendered text has the closing triple quote on the same line and the
claimed output is not produced. -/
theorem blockString_leadingSpace_counterexample :
    (printBlockString " hello" false == "\"\"\" hello\n\"\"\"") = false := by decide

/-- Claim C1, amended: the single-line value consisting of a space and the
word hello, rendered with the block-string flag set, prints with the leading
space preserved and the closing triple quote on the same line; the newline
before the closing triple quote is inserted only when the value ends in a
literal double quote. -/
theorem blockString_leadingSpace_amended :
    printDocASTReducer.StringValue " hello" true false =
      Except.ok "\"\"\" hello\"\"\""
    ∧ printBlockString " hello" false = "\"\"\" hello\"\"\""
    ∧ printBlockString " hi\"" false = "\"\"\" hi\"\n\"\"\"" :=
  ⟨rfl, by decide, by decide⟩

/-- Claim C2: the block-string renderer returns, for a value starting with a
space or tab and containing no newline, the triple quote, the triple-quote-
escaped value with a trailing literal quote (when present) converted to a
quote followed by a newline, and the closing triple quote, with no added
blank lines; for every other value it returns a leading blank line, the
escaped value (verbatim for a description, every line indented two spaces
otherwise) and a trailing blank line before the closing triple quote. -/
theorem printBlockString_matches_spec (value : String) (isDescription : Bool) :
    printBlockString value isDescription = printBlockStringClaim value isDescription := by
  simp only [printBlockString, printBlockStringClaim, indent_eq_indentTwoEachLine]

/-- Helper: the block helper never returns a bare brace pair. -/
theorem block_ne_bracePair (ma : Option (List String)) : block ma ≠ "\x7b\x7d" := by
  intro hcon
  match ma with
  | none => exact absurd hcon (by decide)
  | some a =>
    rw [block] at hcon
    by_cases h : a.length ≠ 0
    · rw [if_pos h] at hcon
      have hlen := congrArg String.length hcon
      simp only [String.length_append] at hlen
      have h1 : ("\x7b\n" : String).length = 2 := rfl
      have h2 : ("\n\x7d" : String).length = 2 := rfl
      have h3 : ("\x7b\x7d" : String).length = 2 := rfl
      omega
    · rw [if_neg h] at hcon
      exact absurd hcon (by decide)

/-- Claim C7: the block helper renders a non-empty member sequence as an
opening brace, the newline-joined members with every resulting line indented
two spaces, and a closing brace on its own line; an empty or absent sequence
renders as the empty string, and the helper never produces a bare brace
pair. -/
theorem block_braces_and_emptiness :
    (∀ a : List String, block (some a) = blockClaim a)
    ∧ block none = ""
    ∧ (∀ ma : Option (List String), (block ma == "\x7b\x7d") = false) := by
  refine ⟨?_, rfl, ?_⟩
  · intro a
    cases a with
    | nil => rfl
    | cons x xs =>
      simp only [block, blockClaim, indent_eq_indentTwoEachLine]
      simp
  · intro ma
    exact beq_eq_false_iff_ne.mpr (block_ne_bracePair ma)

/-- Claim C9: the block helper tests emptiness on the raw sequence before
filtering, so a non-empty sequence whose members are all empty renders as a
brace block containing one blank line. -/
theorem block_all_empty_members (a : List String) (h1 : a ≠ [])
    (h2 : ∀ x ∈ a, x = "") : block (some a) = "\x7b\n\n\x7d" := by
  rw [block]
  rw [if_pos (by simpa [List.length_eq_zero] using h1)]
  have hfil : a.filter (fun x => x != "") = [] := by
    rw [List.filter_eq_nil_iff]
    intro x hx
    simp [h2 x hx]
  rw [join, hfil]
  rfl

/-- Witness for claim C9 at the concrete sequence holding one empty
string. -/
theorem block_all_empty_members_witness : block (some [""]) = "\x7b\n\n\x7d" :=
  block_all_empty_members [""] (by decide) (by decide)

/-- Claim C8: rendering is deterministic; print is a pure function of the
node passed to it, so any two invocations on the same tree return identical
strings. -/
theorem print_deterministic (a b : Node) (h : a = b) : print a = print b :=
  congrArg print h

/-- Witness for claim C8 at a concrete tree. -/
theorem print_deterministic_witness :
    print (Node.Document []) = print (Node.Document []) :=
  print_deterministic (Node.Document []) (Node.Document []) rfl

/-- Claim C10: printing a Document node with no definitions returns exactly
one newline, the unconditionally appended trailing newline. -/
theorem print_empty_document : print (Node.Document []) = Except.ok "\n" := rfl

/-- Claim C3, counterexample: the FieldDefinition entry is not total when its
optional argument list is absent; the source calls args.every on the absent
value and throws, so the entry errors instead of rendering an empty argument
contribution. -/
theorem fieldDefinition_absent_arguments_error :
    exceptOk (printDocASTReducer.FieldDefinition none "field" none "Int" none) = false :=
  rfl

/-- Claim C3, amended: every rendering-table entry is total over well-formed
nodes whose optional fields (directives, descriptions, variable definitions,
interfaces, type and field lists, alias, default value) may be absent,
rendering absent fields as empty contributions; the FieldDefinition and
DirectiveDefinition entries additionally require the argument list itself to
be present (it may be empty), and with it present they are total as well. -/
theorem entries_total_on_optional_fields :
    (∀ v, exceptOk (printDocASTReducer.Name v) = true)
    ∧ (∀ n, exceptOk (printDocASTReducer.Variable n) = true)
    ∧ (∀ ds, exceptOk (printDocASTReducer.Document ds) = true)
    ∧ (∀ op nm vds dirs sel,
        exceptOk (printDocASTReducer.OperationDefinition op nm vds dirs sel) = true)
    ∧ (∀ v t dv, exceptOk (printDocASTReducer.VariableDefinition v t dv) = true)
    ∧ (∀ sels, exceptOk (printDocASTReducer.SelectionSet sels) = true)
    ∧ (∀ al nm args dirs sel,
        exceptOk (printDocASTReducer.Field al nm args dirs sel) = true)
    ∧ (∀ nm v, exceptOk (printDocASTReducer.Argument nm v) = true)
    ∧ (∀ nm dirs, exceptOk (printDocASTReducer.FragmentSpread nm dirs) = true)
    ∧ (∀ tc dirs sel, exceptOk (printDocASTReducer.InlineFragment tc dirs sel) = true)
    ∧ (∀ nm tc vds dirs sel,
        exceptOk (printDocASTReducer.FragmentDefinition nm tc vds dirs sel) = true)
    ∧ (∀ v, exceptOk (printDocASTReducer.IntValue v) = true)
    ∧ (∀ v, exceptOk (printDocASTReducer.FloatValue v) = true)
    ∧ (∀ v b k, exceptOk (printDocASTReducer.StringValue v b k) = true)
    ∧ (∀ v, exceptOk (printDocASTReducer.BooleanValue v) = true)
    ∧ (exceptOk printDocASTReducer.NullValue = true)
    ∧ (∀ v, exceptOk (printDocASTReducer.EnumValue v) = true)
    ∧ (∀ vs, exceptOk (printDocASTReducer.ListValue vs) = true)
    ∧ (∀ fs, exceptOk (printDocASTReducer.ObjectValue fs) = true)
    ∧ (∀ nm v, exceptOk (printDocASTReducer.ObjectField nm v) = true)
    ∧ (∀ nm args, exceptOk (printDocASTReducer.Directive nm args) = true)
    ∧ (∀ nm, exceptOk (printDocASTReducer.NamedType nm) = true)
    ∧ (∀ t, exceptOk (printDocASTReducer.ListType t) = true)
    ∧ (∀ t, exceptOk (printDocASTReducer.NonNullType t) = true)
    ∧ (∀ dirs ots, exceptOk (printDocASTReducer.SchemaDefinition dirs ots) = true)
    ∧ (∀ op t, exceptOk (printDocASTReducer.OperationTypeDefinition op t) = true)
    ∧ (∀ d nm dirs, exceptOk (printDocASTReducer.ScalarTypeDefinition d nm dirs) = true)
    ∧ (∀ d nm ifs dirs fs,
        exceptOk (printDocASTReducer.ObjectTypeDefinition d nm ifs dirs fs) = true)
    ∧ (∀ d nm args t dirs,
        exceptOk (printDocASTReducer.FieldDefinition d nm (some args) t dirs) = true)
    ∧ (∀ d nm t dv dirs,
        exceptOk (printDocASTReducer.InputValueDefinition d nm t dv dirs) = true)
    ∧ (∀ d nm dirs fs,
        exceptOk (printDocASTReducer.InterfaceTypeDefinition d nm dirs fs) = true)
    ∧ (∀ d nm dirs ts,
        exceptOk (printDocASTReducer.UnionTypeDefinition d nm dirs ts) = true)
    ∧ (∀ d nm dirs vs,
        exceptOk (printDocASTReducer.EnumTypeDefinition d nm dirs vs) = true)
    ∧ (∀ d nm dirs, exceptOk (printDocASTReducer.EnumValueDefinition d nm dirs) = true)
    ∧ (∀ d nm dirs fs,
        exceptOk (printDocASTReducer.InputObjectTypeDefinition d nm dirs fs) = true)
    ∧ (∀ d nm args locs,
        exceptOk (printDocASTReducer.DirectiveDefinition d nm (some args) locs) = true)
    ∧ (∀ dirs ots, exceptOk (printDocASTReducer.SchemaExtension dirs ots) = true)
    ∧ (∀ nm dirs, exceptOk (printDocASTReducer.ScalarTypeExtension nm dirs) = true)
    ∧ (∀ nm ifs dirs fs,
        exceptOk (printDocASTReducer.ObjectTypeExtension nm ifs dirs fs) = true)
    ∧ (∀ nm dirs fs,
        exceptOk (printDocASTReducer.InterfaceTypeExtension nm dirs fs) = true)
    ∧ (∀ nm dirs ts, exceptOk (printDocASTReducer.UnionTypeExtension nm dirs ts) = true)
    ∧ (∀ nm dirs vs, exceptOk (printDocASTReducer.EnumTypeExtension nm dirs vs) = true)
    ∧ (∀ nm dirs fs,
        exceptOk (printDocASTReducer.InputObjectTypeExtension nm dirs fs) = true) := by
  repeat' apply And.intro
  all_goals intros
  all_goals rfl

/-- Claim C6: a union type definition or extension with an empty or absent
member-type list omits the member segment entirely, while one with members A
and B renders the segment as an equals sign followed by the pipe-joined
members. -/
theorem union_member_segment :
    (∀ (d : Option String) (nm : String) (dirs : Option (List String)),
      printDocASTReducer.UnionTypeDefinition d nm dirs (some []) =
        Except.ok (addDescription d (join (some ["union", nm, join dirs " "]) " ")))
    ∧ (∀ (d : Option String) (nm : String) (dirs : Option (List String)),
      printDocASTReducer.UnionTypeDefinition d nm dirs none =
        Except.ok (addDescription d (join (some ["union", nm, join dirs " "]) " ")))
    ∧ printDocASTReducer.UnionTypeDefinition none "Name" none (some ["A", "B"]) =
        Except.ok "union Name = A | B"
    ∧ (∀ (nm : String) (dirs : Option (List String)),
      printDocASTReducer.UnionTypeExtension nm dirs (some []) =
        Except.ok (join (some ["extend union", nm, join dirs " "]) " "))
    ∧ (∀ (nm : String) (dirs : Option (List String)),
      printDocASTReducer.UnionTypeExtension nm dirs none =
        Except.ok (join (some ["extend union", nm, join dirs " "]) " "))
    ∧ printDocASTReducer.UnionTypeExtension "Name" none (some ["A", "B"]) =
        Except.ok "extend union Name = A | B" := by
  exact ⟨fun d nm dirs => rfl, fun d nm dirs => rfl, rfl,
    fun nm dirs => rfl, fun nm dirs => rfl, rfl⟩

/-- Claim C4: in FieldDefinition and DirectiveDefinition with a present,
non-empty argument list of non-empty rendered arguments, the arguments are
joined with a comma and space inside parentheses on one line when every
argument is newline-free, and otherwise each argument is placed on its own
line with every resulting line indented two spaces, the parentheses sitting
on their own lines. -/
theorem argument_layout_dual_mode :
    (∀ (d : Option String) (nm : String) (args : List String) (t : String)
        (dirs : Option (List String)), args ≠ [] → (∀ a ∈ args, a ≠ "") →
      printDocASTReducer.FieldDefinition d nm (some args) t dirs =
        Except.ok (addDescription d
          (nm ++
            (if args.all (fun arg => !(arg.data.contains '\n'))
              then "(" ++ joinSep ", " args ++ ")"
              else "(\n" ++ indentTwoEachLine (joinSep "\n" args) ++ "\n)") ++
            ": " ++ t ++ wrap " " (join dirs " ") "")))
    ∧ (∀ (d : Option String) (nm : String) (args : List String)
        (locs : List String), args ≠ [] → (∀ a ∈ args, a ≠ "") →
      printDocASTReducer.DirectiveDefinition d nm (some args) locs =
        Except.ok (addDescription d
          ("directive @" ++ nm ++
            (if args.all (fun arg => !(arg.data.contains '\n'))
              then "(" ++ joinSep ", " args ++ ")"
              else "(\n" ++ indentTwoEachLine (joinSep "\n" args) ++ "\n)") ++
            " on " ++ join (some locs) " | "))) := by
  constructor
  · intro d nm args t dirs hne hel
    obtain ⟨a0, rest, rfl⟩ : ∃ a0 rest, args = a0 :: rest := by
      cases args with
      | nil => exact absurd rfl hne
      | cons a0 rest => exact ⟨a0, rest, rfl⟩
    have h0 : a0 ≠ "" := hel a0 (List.mem_cons_self a0 rest)
    have hjc : joinSep ", " (a0 :: rest) ≠ "" := joinSep_ne_empty _ _ _ h0
    have hjn : joinSep "\n" (a0 :: rest) ≠ "" := joinSep_ne_empty _ _ _ h0
    simp only [printDocASTReducer.FieldDefinition]
    rw [join_all_ne ", " _ hel, join_all_ne "\n" _ hel,
      wrap_of_ne "(" _ ")" hjc,
      wrap_of_ne "(\n" _ "\n)" (indent_ne_empty _ hjn),
      indent_eq_indentTwoEachLine]
  · intro d nm args locs hne hel
    obtain ⟨a0, rest, rfl⟩ : ∃ a0 rest, args = a0 :: rest := by
      cases args with
      | nil => exact absurd rfl hne
      | cons a0 rest => exact ⟨a0, rest, rfl⟩
    have h0 : a0 ≠ "" := hel a0 (List.mem_cons_self a0 rest)
    have hjc : joinSep ", " (a0 :: rest) ≠ "" := joinSep_ne_empty _ _ _ h0
    have hjn : joinSep "\n" (a0 :: rest) ≠ "" := joinSep_ne_empty _ _ _ h0
    simp only [printDocASTReducer.DirectiveDefinition]
    rw [join_all_ne ", " _ hel, join_all_ne "\n" _ hel,
      wrap_of_ne "(" _ ")" hjc,
      wrap_of_ne "(\n" _ "\n)" (indent_ne_empty _ hjn),
      indent_eq_indentTwoEachLine]

/-- Witness for claim C4: a field definition with the single-line argument
list and a directive definition with a multi-line argument. -/
theorem argument_layout_dual_mode_witness :
    printDocASTReducer.FieldDefinition none "f" (some ["x: Int"]) "Int" none =
      Except.ok "f(x: Int): Int"
    ∧ printDocASTReducer.DirectiveDefinition none "d" (some ["x: Int\n  deep"])
        ["QUERY"] =
      Except.ok "directive @d(\n  x: Int\n    deep\n) on QUERY" :=
  ⟨(argument_layout_dual_mode.1 none "f" ["x: Int"] "Int" none (by decide)
      (by decide)).trans (by rfl),
   (argument_layout_dual_mode.2 none "d" ["x: Int\n  deep"] ["QUERY"] (by decide)
      (by decide)).trans (by rfl)⟩

/-- Claim C5: an operation definition with the default query operation and
absent or empty name, directives and variable definitions renders as exactly
its selection set (the shorthand form); every other operation definition
renders as the operation keyword, the name immediately followed by the
parenthesized variable definitions, the directives and the selection set,
space-joined with empty optional parts omitted. -/
theorem operation_shorthand_and_full_form :
    (∀ sel, printDocASTReducer.OperationDefinition "query" none none none sel =
      Except.ok sel)
    ∧ (∀ sel, printDocASTReducer.OperationDefinition "query" none (some [])
        (some []) sel = Except.ok sel)
    ∧ (∀ op nm sel, printDocASTReducer.OperationDefinition op nm none none sel =
        printDocASTReducer.OperationDefinition op nm (some []) (some []) sel)
    ∧ (∀ (op : String) (nm : Option String) (vds dirs : List String) (sel : String),
        (∀ v ∈ vds, v ≠ "") → (∀ dd ∈ dirs, dd ≠ "") → nm ≠ some "" →
        ¬(op = "query" ∧ nm = none ∧ vds = [] ∧ dirs = []) →
        printDocASTReducer.OperationDefinition op nm (some vds) (some dirs) sel =
          Except.ok (join (some [op,
            nm.getD "" ++ wrap "(" (join (some vds) ", ") ")",
            join (some dirs) " ", sel]) " ")) := by
  refine ⟨fun sel => rfl, fun sel => rfl, fun op nm sel => rfl, ?_⟩
  intro op nm vds dirs sel hv hd hnm hcond
  have hname : nm.getD "" = "" ↔ nm = none := by
    cases nm with
    | none => simp
    | some s =>
      simp only [Option.getD, reduceCtorEq, iff_false]
      intro hs
      exact hnm (by rw [hs])
  have hdirs : join (some dirs) " " = "" ↔ dirs = [] := join_eq_empty_iff _ _ hd
  have hvds : wrap "(" (join (some vds) ", ") ")" = "" ↔ vds = [] :=
    (wrap_eq_empty_iff _ _ _).trans (join_eq_empty_iff _ _ hv)
  simp only [printDocASTReducer.OperationDefinition]
  rw [if_neg (fun hif => hcond
    ⟨hif.2.2.2, hname.mp hif.1, hvds.mp hif.2.2.1, hdirs.mp hif.2.1⟩)]
  rw [join_pair_nosep]

/-- Witness for claim C5, the full form at a named mutation. -/
theorem operation_full_form_witness :
    printDocASTReducer.OperationDefinition "mutation" (some "M") (some [])
      (some []) "sel" = Except.ok "mutation M sel" :=
  (operation_shorthand_and_full_form.2.2.2 "mutation" (some "M") [] [] "sel"
    (by decide) (by decide) (by decide) (by decide)).trans (by rfl)
